import Mathlib

/-!
Verification of the CryptoBot opportunity-to-trade pipeline against its
natural-language specification.  The JavaScript services are shallowly
embedded: JSON numbers become rationals, a missing / NaN-coercing value is
`Option.none`, JS `Map`s become association lists, and each consumer loop
body becomes a pure step function from state and message to state and
emitted messages.
-/

namespace CryptoBot

/-- A JS numeric field: `none` models a value whose numeric coercion is NaN
(missing key, `undefined`, `null`, unparsable string), `some q` a finite
number. -/
abbrev JsNum := Option ℚ

/-- `safeNum(v, d)` from the risk engine: `(v == null || isNaN(v)) ? d : Number(v)`.
The same `getD` pattern also models `Number(x || 0)` where `x` is a numeric
field (both `NaN` and a missing key coerce to the default). -/
def safeNum (v : JsNum) (d : ℚ) : ℚ := v.getD d

/-- JS `a || b` on a numeric field: `0`, `NaN` and missing are falsy. -/
def jsOrQ (a : ℚ) (b : ℚ) : ℚ := if a = 0 then b else a

/-- ASCII uppercase of one character.  All sides, modes and reasons in this
system are ASCII strings, where this agrees with JS `toUpperCase`. -/
def upChar (c : Char) : Char :=
  if 'a' ≤ c ∧ c ≤ 'z' then Char.ofNat (c.toNat - 32) else c

/-- `String.prototype.toUpperCase` on the ASCII fragment. -/
def jsUpper (s : String) : String := ⟨s.data.map upChar⟩

/-- ASCII lowercase of one character. -/
def downChar (c : Char) : Char :=
  if 'A' ≤ c ∧ c ≤ 'Z' then Char.ofNat (c.toNat + 32) else c

/-- `String.prototype.toLowerCase` on the ASCII fragment. -/
def jsLower (s : String) : String := ⟨s.data.map downChar⟩

/-- ASCII whitespace test for `String.prototype.trim`. -/
def isWsChar (c : Char) : Bool := c = ' ' ∨ c = '\t' ∨ c = '\n' ∨ c = '\r'

/-- `String.prototype.trim` on the ASCII fragment. -/
def jsTrim (s : String) : String :=
  ⟨((s.data.dropWhile isWsChar).reverse.dropWhile isWsChar).reverse⟩

/-- One leg of an Opportunity as emitted by the scanner / consumed downstream.
`side` models `String(l?.side || '')`, so a missing side is the empty string. -/
structure Leg where
  exchange : String
  instrumentId : String
  side : String
  estPx : JsNum
  feeBps : JsNum
  size : JsNum
  deriving Repr, DecidableEq

/-- `payload.costs` of an Opportunity (`fees`, `slippage`, `borrow` keys). -/
structure Costs where
  fees : JsNum
  slippage : JsNum
  borrow : JsNum
  deriving Repr, DecidableEq

/-- `payload` of an Opportunity. -/
structure OppPayload where
  edgeBps : JsNum
  legs : List Leg
  paper : Bool
  costs : Costs
  deriving Repr, DecidableEq

/-- The policy values the risk engine embeds into an approved record
(`EDGE_MIN_BPS`, `NET_MIN_BPS`, `MAX_TOTAL_SIZE`, `REQUIRE_BOTH_SIDES`). -/
structure RiskPolicy where
  edgeMinBps : ℚ
  netMinBps : ℚ
  maxTotalSize : ℚ
  requireBothSides : Bool
  deriving Repr, DecidableEq

/-- The `risk` block the risk engine attaches to an approved Opportunity. -/
structure RiskBlock where
  reason : String
  netBps : JsNum
  totalFeesLikeBps : JsNum
  policy : RiskPolicy
  deriving Repr, DecidableEq

/-- A (possibly approved) Opportunity message.  `approved` and `risk` are
absent (`none`) on scanner output and set by the risk engine's spread
`{...opp, approved: true, risk: {...}}`. -/
structure Opportunity where
  id : Option String
  corrId : Option String
  ts : ℚ
  approved : Option Bool
  risk : Option RiskBlock
  payload : OppPayload
  deriving Repr, DecidableEq

/-- A Trade record as appended to `arb.trades`, polymorphic in the leg type
(the executor copies Opportunity legs, the assembler builds its own).
`taken`, `approved` and `source` are `Option` because the assembler's object
literal has none of these keys while the executor's has all three. -/
structure Trade (L : Type) where
  ts : ℚ
  mode : String
  legs : List L
  realizedPnl : ℚ
  taken : Option Bool
  approved : Option Bool
  source : Option String
  deriving Repr, DecidableEq

/-- Association-list view of a JS `Map` (`inflight`, `pending`). -/
def mapLookup {α : Type} : List (String × α) → String → Option α
  | [], _ => none
  | (k', v) :: rest, k => if k' = k then some v else mapLookup rest k

/-- `Map.prototype.set`: replace in place if the key exists, else append. -/
def mapSet {α : Type} : List (String × α) → String → α → List (String × α)
  | [], k, v => [(k, v)]
  | (k', v') :: rest, k, v =>
      if k' = k then (k, v) :: rest else (k', v') :: mapSet rest k v

/-- `Map.prototype.delete`. -/
def mapDelete {α : Type} (m : List (String × α)) (k : String) : List (String × α) :=
  m.filter (fun p => p.1 ≠ k)

end CryptoBot

namespace CryptoBot.Scanner

/-- Parsed orderbook value `{bid, ask, ts}` for one venue (books whose bid or
ask fail `safeNum` are rejected by `parseBook` and never reach the scan). -/
structure Book where
  bid : ℚ
  ask : ℚ
  ts : ℚ
  deriving Repr, DecidableEq

/-- Scanner thresholds and per-venue taker fees (env configuration). -/
structure ScanCfg where
  ex1TakerBps : ℚ
  ex2TakerBps : ℚ
  minNetBps : ℚ
  minGrossBps : ℚ
  minAbsSpread : ℚ
  minNotional : ℚ
  maxBookAgeMs : ℚ
  deriving Repr, DecidableEq

/-- Result record of `calcEdge`. -/
structure EdgeR where
  mid : ℚ
  grossBps : ℚ
  feesBps : ℚ
  netBps : ℚ
  abs : ℚ
  deriving Repr, DecidableEq

/-- `calcEdge(pxBuy, feeBuyBps, pxSell, feeSellBps)` from the scanner. -/
def calcEdge (pxBuy feeBuyBps pxSell feeSellBps : ℚ) : EdgeR :=
  let mid := (pxBuy + pxSell) / 2
  if ¬ mid > 0 then
    { mid := 0, grossBps := 0, feesBps := 0, netBps := 0, abs := 0 }
  else
    let grossBps := ((pxSell - pxBuy) / mid) * 10000
    let feesBps := feeBuyBps + feeSellBps
    { mid := mid, grossBps := grossBps, feesBps := feesBps,
      netBps := grossBps - feesBps, abs := pxSell - pxBuy }

/-- The admission conjunction of `scanOnce` for one directional path
(`Number.isFinite(netBps)` always holds over ℚ and is omitted). -/
def admitGate (cfg : ScanCfg) (e : EdgeR) : Bool :=
  decide (e.grossBps ≥ cfg.minGrossBps) && decide (e.netBps ≥ cfg.minNetBps) &&
  decide (e.abs ≥ cfg.minAbsSpread) && decide (e.mid * 1 ≥ cfg.minNotional)

/-- Candidate opportunity handed to `emitOpp` (which then applies the token
bucket and appends `{ts, payload:{edgeBps, legs, paper}}`). -/
structure EmitOpp where
  legs : List Leg
  edgeBps : ℚ
  feesBps : ℚ
  paper : Bool
  deriving Repr, DecidableEq

/-- A leg literal as built inline in `scanOnce`. -/
def mkLeg (exchange canon side : String) (px feeBps : ℚ) : Leg :=
  { exchange := exchange, instrumentId := canon, side := side,
    estPx := some px, feeBps := some feeBps, size := none }

/-- Path A of `scanOnce`: BUY the ex1 ask, SELL the ex2 bid, guarded by the
JS truthiness test `if (b1.ask && b2.bid)`. -/
def pathAOpp (cfg : ScanCfg) (canon ex1Label ex2Label : String) (b1 b2 : Book) :
    Option EmitOpp :=
  if b1.ask ≠ 0 ∧ b2.bid ≠ 0 then
    let e := calcEdge b1.ask cfg.ex1TakerBps b2.bid cfg.ex2TakerBps
    if admitGate cfg e then
      some { legs := [mkLeg ex1Label canon "BUY" b1.ask cfg.ex1TakerBps,
                      mkLeg ex2Label canon "SELL" b2.bid cfg.ex2TakerBps],
             edgeBps := e.grossBps, feesBps := e.feesBps, paper := true }
    else none
  else none

/-- Path B of `scanOnce`: BUY the ex2 ask, SELL the ex1 bid, guarded by
`if (b2.ask && b1.bid)`. -/
def pathBOpp (cfg : ScanCfg) (canon ex1Label ex2Label : String) (b1 b2 : Book) :
    Option EmitOpp :=
  if b2.ask ≠ 0 ∧ b1.bid ≠ 0 then
    let e := calcEdge b2.ask cfg.ex2TakerBps b1.bid cfg.ex1TakerBps
    if admitGate cfg e then
      some { legs := [mkLeg ex2Label canon "BUY" b2.ask cfg.ex2TakerBps,
                      mkLeg ex1Label canon "SELL" b1.bid cfg.ex1TakerBps],
             edgeBps := e.grossBps, feesBps := e.feesBps, paper := true }
    else none
  else none

/-- One iteration of the `scanOnce` pair loop for a symbol with both books
present: the stale-book `continue`, then the two directional paths.  The
returned candidates are each still subject to `takeToken` inside `emitOpp`. -/
def scanPair (cfg : ScanCfg) (tNow : ℚ) (canon ex1Label ex2Label : String)
    (b1 b2 : Book) : List EmitOpp :=
  if tNow - b1.ts > cfg.maxBookAgeMs ∨ tNow - b2.ts > cfg.maxBookAgeMs then []
  else
    (pathAOpp cfg canon ex1Label ex2Label b1 b2).toList ++
    (pathBOpp cfg canon ex1Label ex2Label b1 b2).toList

/-- Token-bucket state of the scanner (`tokens`, `lastRefill`). -/
structure TokenBucket where
  tokens : ℚ
  lastRefill : ℚ
  deriving Repr, DecidableEq

/-- `takeToken(1)`: refill by elapsed seconds times the rate, capped at the
burst, then spend one token if available. -/
def takeToken (emitBurst emitRatePerSec : ℚ) (tb : TokenBucket) (t : ℚ) :
    Bool × TokenBucket :=
  let delta := (t - tb.lastRefill) / 1000
  let tokens := min emitBurst (tb.tokens + delta * emitRatePerSec)
  if tokens ≥ 1 then (true, { tokens := tokens - 1, lastRefill := t })
  else (false, { tokens := tokens, lastRefill := t })

end CryptoBot.Scanner

namespace CryptoBot.RiskEngine

/-- Risk policy configuration (`RISK_*` env values). -/
structure RiskCfg where
  edgeMinBps : ℚ
  netMinBps : ℚ
  maxTotalSize : ℚ
  requireBothSides : Bool
  allowPaperOnly : Bool
  deriving Repr, DecidableEq

/-- Outcome record of `evaluateRisk`:
`{ok, reason, netBps?, totalFeesLikeBps?}`. -/
structure RiskResult where
  ok : Bool
  reason : String
  netBps : JsNum
  totalFeesLikeBps : JsNum
  deriving Repr, DecidableEq

/-- `Number(x.toFixed(2))`: round to two decimals, ties away from zero. -/
def round2 (q : ℚ) : ℚ :=
  if q ≥ 0 then ((⌊q * 100 + 1/2⌋ : ℤ) : ℚ) / 100
  else -(((⌊-q * 100 + 1/2⌋ : ℤ) : ℚ) / 100)

/-- `evaluateRisk(opp)`: the policy-check chain of the risk engine, in source
order (paper mode, both sides, size cap, gross edge, net floor).  A `none`
gross edge models the NaN that fails `Number.isFinite` and is rejected by the
`edge_below_threshold` branch. -/
def evaluateRisk (cfg : RiskCfg) (opp : Opportunity) : RiskResult :=
  let p := opp.payload
  let mode := if p.paper then "paper" else "live"
  if ¬ cfg.allowPaperOnly ∧ mode = "paper" then
    { ok := false, reason := "paper_mode_not_allowed",
      netBps := none, totalFeesLikeBps := none }
  else
    -- legs.filter(Boolean): all elements of a typed leg list are truthy
    let legs := p.legs
    let hasBuy := legs.any fun l => jsUpper l.side == "BUY"
    let hasSell := legs.any fun l => jsUpper l.side == "SELL"
    if cfg.requireBothSides && !(hasBuy && hasSell) then
      { ok := false, reason := "missing_side",
        netBps := none, totalFeesLikeBps := none }
    else
      let totalSize := legs.foldl (fun a l => a + safeNum l.size 0) 0
      if totalSize > 0 ∧ totalSize > cfg.maxTotalSize then
        { ok := false, reason := "size_exceeds_cap",
          netBps := none, totalFeesLikeBps := none }
      else
        let buy := legs.find? fun l => jsUpper l.side == "BUY"
        let sell := legs.find? fun l => jsUpper l.side == "SELL"
        let buyPx : JsNum := buy.bind Leg.estPx
        let sellPx : JsNum := sell.bind Leg.estPx
        let grossBps : JsNum :=
          match p.edgeBps with
          | some g => some g
          | none =>
              match buyPx, sellPx with
              | some b, some sp =>
                  let mid := (b + sp) / 2
                  if mid > 0 then some (((sp - b) / mid) * 10000) else none
              | _, _ => none
        match grossBps with
        | none =>
            { ok := false, reason := "edge_below_threshold",
              netBps := none, totalFeesLikeBps := none }
        | some g =>
            if g < cfg.edgeMinBps then
              { ok := false, reason := "edge_below_threshold",
                netBps := none, totalFeesLikeBps := none }
            else
              let legsFeeBps := legs.foldl (fun a l => a + safeNum l.feeBps 0) 0
              let feesBpsAbs := safeNum p.costs.fees 0 * 10000
              let feesBps := if legsFeeBps > 0 then legsFeeBps else feesBpsAbs
              let slippageBps := safeNum p.costs.slippage 0 * 10000
              let borrowBps := safeNum p.costs.borrow 0 * 10000
              let totalFeesLikeBps := feesBps + slippageBps + borrowBps
              let netBps := round2 (g - totalFeesLikeBps)
              if netBps < cfg.netMinBps then
                { ok := false, reason := "net_below_threshold",
                  netBps := some netBps, totalFeesLikeBps := some totalFeesLikeBps }
              else
                { ok := true, reason := "approved",
                  netBps := some netBps, totalFeesLikeBps := some totalFeesLikeBps }

/-- `buildApproved(opp, evalRes)`: the spread `{...opp, approved: true,
risk: {...}}` — every original field survives untouched.  The reason field is
`evalRes?.reason || 'approved'` (an empty string falls back). -/
def buildApproved (cfg : RiskCfg) (opp : Opportunity) (ev : RiskResult) : Opportunity :=
  { opp with
    approved := some true,
    risk := some { reason := if ev.reason = "" then "approved" else ev.reason,
                   netBps := ev.netBps,
                   totalFeesLikeBps := ev.totalFeesLikeBps,
                   policy := { edgeMinBps := cfg.edgeMinBps,
                               netMinBps := cfg.netMinBps,
                               maxTotalSize := cfg.maxTotalSize,
                               requireBothSides := cfg.requireBothSides } } }

/-- One message of the risk engine's `consume` loop: publish on approval,
count, and always acknowledge (`finally` block). -/
structure RiskStep where
  published : Option Opportunity
  approvedInc : ℕ
  rejectedInc : ℕ
  acked : Bool
  deriving Repr, DecidableEq

/-- The body of `consume` for one parsed Opportunity. -/
def riskStep (cfg : RiskCfg) (opp : Opportunity) : RiskStep :=
  let ev := evaluateRisk cfg opp
  if ev.ok then
    { published := some (buildApproved cfg opp ev),
      approvedInc := 1, rejectedInc := 0, acked := true }
  else
    { published := none, approvedInc := 0, rejectedInc := 1, acked := true }

end CryptoBot.RiskEngine

namespace CryptoBot.Executor

/-- `payload` of a Fill message.  `legIndex` is a natural array index (the
executor writes `st.fills[legIndex]` and compares `legIndex === 0`). -/
structure FillPayload where
  corrId : Option String
  legIndex : ℕ
  exchange : Option String
  instrumentId : Option String
  side : String
  px : JsNum
  requestedSize : JsNum
  filledSize : JsNum
  mode : Option String
  deriving Repr, DecidableEq

/-- A Fill message on `orders.fills`. -/
structure FillMsg where
  id : Option String
  ts : ℚ
  payload : FillPayload
  deriving Repr, DecidableEq

/-- An inflight entry: `{opp, legs, fills: [], startedTs}`.  The sparse JS
array `fills` (written only at `fills[legIndex] = fill`) is an association
list indexed by `legIndex`; array holes are simply absent entries, matching
the `continue` that skips them in the PnL loop. -/
structure Inflight where
  opp : Opportunity
  legs : List Leg
  fills : List (ℕ × FillMsg)
  startedTs : ℚ
  deriving Repr, DecidableEq

/-- The executor's in-process mutable state: the `AUTO_TRADE` and `MODE`
module variables and the `inflight` map. -/
structure ExecState where
  autoTrade : Bool
  mode : String
  inflight : List (String × Inflight)
  deriving Repr, DecidableEq

/-- `tradingEnabled()`. -/
def tradingEnabled (s : ExecState) : Bool := s.autoTrade

/-- `parseBool` restricted to the string case (redis GET returns strings; the
default `d` is only reached for non-string inputs, which cannot occur on the
refresh path). -/
def parseBool (v : String) (_d : Bool) : Bool :=
  let s := jsLower (jsTrim v)
  s == "true" || s == "1" || s == "yes" || s == "on"

/-- `refreshToggles()` given the two values read from the key-value store
(`toggles:autoTrade`, `toggles:mode`; `none` = key absent).  On a `true→false`
edge of `autoTrade` the inflight map is cleared. -/
def refreshToggles (s : ExecState) (atRaw : Option String) (mdRaw : Option String) :
    ExecState :=
  let s1 :=
    match atRaw with
    | none => s
    | some v =>
        let next := parseBool v s.autoTrade
        if next ≠ s.autoTrade then
          { s with autoTrade := next,
                   inflight := if s.autoTrade ∧ ¬ next then [] else s.inflight }
        else s
  match mdRaw with
  | some m =>
      if (m = "live" ∨ m = "paper") ∧ m ≠ s1.mode then { s1 with mode := m } else s1
  | none => s1

/-- Request body of `POST /toggles` (`autoTrade` is a JSON boolean when
present; `!!autoTrade` is then the boolean itself). -/
structure TogglesBody where
  autoTrade : Option Bool
  mode : Option String
  deriving Repr, DecidableEq

/-- Result of the `POST /toggles` handler: the new in-memory state plus the
strings written to the two key-value keys. -/
structure TogglesResult where
  state : ExecState
  kvAutoTrade : Option String
  kvMode : Option String
  deriving Repr, DecidableEq

/-- The `POST /toggles` handler: writes the key-value keys and assigns the
module variables directly.  It never touches `inflight`. -/
def postToggles (s : ExecState) (body : TogglesBody) : TogglesResult :=
  let s1 :=
    match body.autoTrade with
    | some b => { s with autoTrade := b }
    | none => s
  let w1 : Option String :=
    match body.autoTrade with
    | some b => some (if b then "true" else "false")
    | none => none
  match body.mode with
  | some m =>
      if m = "live" ∨ m = "paper" then
        { state := { s1 with mode := m }, kvAutoTrade := w1, kvMode := some m }
      else
        { state := s1, kvAutoTrade := w1, kvMode := none }
  | none => { state := s1, kvAutoTrade := w1, kvMode := none }

/-- The SELL test of `protectiveFirst`: `(l?.side || '').toUpperCase() === 'SELL'`. -/
def isSellLeg (l : Leg) : Bool := jsUpper l.side == "SELL"

/-- `Array.prototype.findIndex` with the SELL predicate; `none` models -1. -/
def findSellIdx : List Leg → Option ℕ
  | [] => none
  | l :: ls => if isSellLeg l then some 0 else (findSellIdx ls).map (· + 1)

/-- `protectiveFirst(legs)`: move the first SELL leg (if any) to the front,
keeping the remaining legs (`legs.filter((_, i) => i !== idx)`) in order. -/
def protectiveFirst (legs : List Leg) : List Leg :=
  match findSellIdx legs with
  | some idx =>
      match legs.get? idx with
      | some l => l :: legs.eraseIdx idx
      | none => legs
  | none => legs

/-- An Order message on `orders.new` (`{id, ts, type:'order.new',
payload:{corrId, legIndex, tif, ...leg}}`). -/
structure OrderMsg where
  id : String
  ts : ℚ
  corrId : String
  legIndex : ℕ
  tif : String
  leg : Leg
  deriving Repr, DecidableEq

/-- `sendOrder(corrId, legIndex, leg, tif)`: guarded by `tradingEnabled`,
returns `none` (and emits nothing) when trading is off. -/
def sendOrder (s : ExecState) (orderId : String) (nowTs : ℚ) (corrId : String)
    (legIndex : ℕ) (leg : Leg) (tif : String) : Option OrderMsg :=
  if tradingEnabled s then
    some { id := orderId, ts := nowTs, corrId := corrId, legIndex := legIndex,
           tif := tif, leg := leg }
  else none

/-- `st.fills[legIndex] = fill` on the association-list view of the sparse
array: overwrite the slot if present, else add it. -/
def setFill : List (ℕ × FillMsg) → ℕ → FillMsg → List (ℕ × FillMsg)
  | [], i, f => [(i, f)]
  | (j, g) :: rest, i, f =>
      if j = i then (i, f) :: rest else (j, g) :: setFill rest i f

/-- The gross/qty accumulation loop of `computePnlFromFills`: entries whose
`px` coerces to NaN are skipped (`continue`); `sgn` is +1 for SELL, -1 for
BUY and 0 otherwise; `qty` accumulates `filledSize` in every non-skipped
iteration. -/
def grossQty (fills : List (ℕ × FillMsg)) : ℚ × ℚ :=
  fills.foldl
    (fun acc f =>
      match f.2.payload.px with
      | none => acc
      | some px =>
          let side := jsUpper f.2.payload.side
          let sz := safeNum f.2.payload.filledSize 0
          let sgn : ℚ := if side == "SELL" then 1 else if side == "BUY" then -1 else 0
          (acc.1 + sgn * px * sz, acc.2 + sz))
    (0, 0)

/-- `computePnlFromFills(opp, fills)`.  `mid` is `none` when either leg or its
`estPx` is missing (the JS `!= null` test); the `if (mid && qty)` truthiness
gate also treats a zero mid or zero qty as falsy. -/
def computePnlFromFills (opp : Opportunity) (fills : List (ℕ × FillMsg)) : ℚ :=
  let legs := opp.payload.legs
  if fills.isEmpty then 0
  else
    let gq := grossQty fills
    let buy := legs.find? fun l => jsUpper l.side == "BUY"
    let sell := legs.find? fun l => jsUpper l.side == "SELL"
    let mid : JsNum :=
      match buy, sell with
      | some b, some sl =>
          match b.estPx, sl.estPx with
          | some bp, some sp => some ((bp + sp) / 2)
          | _, _ => none
      | _, _ => none
    let feesLikeAbs := safeNum opp.payload.costs.fees 0 +
                       safeNum opp.payload.costs.slippage 0 +
                       safeNum opp.payload.costs.borrow 0
    let totalFees :=
      match mid with
      | some m => if m ≠ 0 ∧ gq.2 ≠ 0 then feesLikeAbs * (gq.2 * m) else 0
      | none => 0
    gq.1 - totalFees

/-- Outcome of a JS call that may throw. -/
inductive JsResult (α : Type) where
  | ok (val : α)
  | thrown (err : String)
  deriving Repr, DecidableEq

/-- The executor module's top-level scope binds no identifier named
`approved`; the object-literal shorthand `approved,` inside `emitTrade`
therefore evaluates an unresolved identifier.  This constant is the result of
that scope lookup. -/
def moduleApprovedBinding : Option Bool := none

/-- `emitTrade(opp, fills)`: guarded by `tradingEnabled` and by
`realizedPnl > MIN_REALIZED_PNL`; the trade literal evaluates the shorthand
property `approved` from module scope, which throws a `ReferenceError` in
strict (ESM) mode because the binding does not exist. -/
def emitTrade (s : ExecState) (minRealizedPnl : ℚ) (opp : Opportunity)
    (fills : List (ℕ × FillMsg)) (nowTs : ℚ) : JsResult (Option (Trade Leg)) :=
  if ¬ tradingEnabled s then .ok none
  else
    let realizedPnl := computePnlFromFills opp fills
    if realizedPnl > minRealizedPnl then
      match moduleApprovedBinding with
      | none => .thrown "ReferenceError: approved is not defined"
      | some a =>
          .ok (some { ts := nowTs,
                      mode := if opp.payload.paper then "paper" else "live",
                      legs := opp.payload.legs, realizedPnl := realizedPnl,
                      taken := some true, approved := some a,
                      source := some "executor" })
    else .ok none

/-- Result of handling one message inside `consumeFills`. -/
structure FillStepResult where
  state : ExecState
  orders : List OrderMsg
  emitted : List (Trade Leg)
  acked : Bool
  deriving Repr, DecidableEq

/-- The body of `consumeFills` for one parsed Fill.  A thrown `emitTrade`
lands in the `catch`, which logs and acknowledges — in that case the
`inflight.delete` after the call never runs, so the (mutated) entry stays. -/
def processFill (s : ExecState) (minRealizedPnl : ℚ) (f : FillMsg) (nowTs : ℚ)
    (freshOrderId : String) : FillStepResult :=
  match f.payload.corrId with
  | none => { state := s, orders := [], emitted := [], acked := true }
  | some corrId =>
      match mapLookup s.inflight corrId with
      | none => { state := s, orders := [], emitted := [], acked := true }
      | some st =>
          let st1 : Inflight := { st with fills := setFill st.fills f.payload.legIndex f }
          let filledSize := safeNum f.payload.filledSize 0
          if f.payload.legIndex = 0 then
            if filledSize > 0 then
              match st1.legs.get? 1 with
              | some leg1 =>
                  { state := { s with inflight := mapSet s.inflight corrId st1 },
                    orders := (sendOrder s freshOrderId nowTs corrId 1 leg1 "IOC").toList,
                    emitted := [], acked := true }
              | none =>
                  match emitTrade s minRealizedPnl st1.opp st1.fills nowTs with
                  | .ok t =>
                      { state := { s with inflight := mapDelete s.inflight corrId },
                        orders := [], emitted := t.toList, acked := true }
                  | .thrown _ =>
                      { state := { s with inflight := mapSet s.inflight corrId st1 },
                        orders := [], emitted := [], acked := true }
            else
              { state := { s with inflight := mapDelete s.inflight corrId },
                orders := [], emitted := [], acked := true }
          else
            match emitTrade s minRealizedPnl st1.opp st1.fills nowTs with
            | .ok t =>
                { state := { s with inflight := mapDelete s.inflight corrId },
                  orders := [], emitted := t.toList, acked := true }
            | .thrown _ =>
                { state := { s with inflight := mapSet s.inflight corrId st1 },
                  orders := [], emitted := [], acked := true }

/-- Result of one `consumeFills` poll cycle. -/
structure FillsCycle where
  state : ExecState
  orders : List OrderMsg
  emitted : List (Trade Leg)
  consumed : List FillMsg
  deriving Repr, DecidableEq

/-- One `consumeFills` cycle over the batch delivered by the blocking read.
The leading `if (!tradingEnabled()) return` is a hard stop: nothing is read
from `orders.fills` at all when the toggle is off.  (The `fillsReady`
connection guard is modeled by considering cycles with a connected client; a
disconnected client delivers no batch at all.) -/
def consumeFills (s : ExecState) (minRealizedPnl : ℚ) (msgs : List FillMsg)
    (nowTs : ℚ) (freshOrderIds : ℕ → String) : FillsCycle :=
  if ¬ tradingEnabled s then { state := s, orders := [], emitted := [], consumed := [] }
  else
    let r := msgs.enum.foldl
      (fun acc im =>
        let r := processFill acc.1 minRealizedPnl im.2 nowTs (freshOrderIds im.1)
        (r.state, (acc.2.1 ++ r.orders, acc.2.2 ++ r.emitted)))
      (s, ([], []))
    { state := r.1, orders := r.2.1, emitted := r.2.2, consumed := msgs }

/-- The contents currently deliverable on the two candidate input streams. -/
structure StreamsIn where
  arbOpportunities : List Opportunity
  arbApproved : List Opportunity
  deriving Repr, DecidableEq

/-- Result of one `consumeOpportunities` poll cycle. -/
structure OppCycle where
  state : ExecState
  orders : List OrderMsg
  consumed : List Opportunity
  deriving Repr, DecidableEq

/-- `opp.corrId || opp.id || uuidv4()` (`fresh` stands for the generated
uuid). -/
def corrIdOf (opp : Opportunity) (fresh : String) : String :=
  match opp.corrId with
  | some c => c
  | none =>
      match opp.id with
      | some i => i
      | none => fresh

/-- The body of `consumeOpportunities` for one parsed Opportunity: register
the inflight entry under the correlation id and send leg 0 when present. -/
def oppStep (nowTs : ℚ) (freshCorrIds freshOrderIds : ℕ → String)
    (acc : ExecState × List OrderMsg) (im : ℕ × Opportunity) :
    ExecState × List OrderMsg :=
  let s0 := acc.1
  let opp := im.2
  let corrId := corrIdOf opp (freshCorrIds im.1)
  let legs := protectiveFirst opp.payload.legs
  let entry : Inflight := { opp := opp, legs := legs, fills := [], startedTs := nowTs }
  let s1 : ExecState := { s0 with inflight := mapSet s0.inflight corrId entry }
  match legs.get? 0 with
  | some l0 => (s1, acc.2 ++ (sendOrder s1 (freshOrderIds im.1) nowTs corrId 0 l0 "IOC").toList)
  | none => (s1, acc.2)

/-- One `consumeOpportunities` cycle.  The function hard-stops when the
toggle is off, and its single `xreadgroup` names only `arb.opportunities`
(`const source = 'arb.opportunities'`): the `arb.approved` stream content
never enters the computation.  (The `oppReady` connection guard is modeled by
considering cycles with a connected client, which delivers the batch.) -/
def consumeOpportunities (s : ExecState) (streams : StreamsIn)
    (freshCorrIds freshOrderIds : ℕ → String) (nowTs : ℚ) : OppCycle :=
  if ¬ tradingEnabled s then { state := s, orders := [], consumed := [] }
  else
    let msgs := streams.arbOpportunities
    let r := msgs.enum.foldl (oppStep nowTs freshCorrIds freshOrderIds) (s, [])
    { state := r.1, orders := r.2, consumed := msgs }

end CryptoBot.Executor

namespace CryptoBot.OrderSim

/-- The size computation of `emitFillFromOrder`:
`Number(ord?.payload?.size ?? 1) || 1`.  A missing or `null` size takes the
`?? 1` default; a NaN-coercing or zero size is falsy and takes the `|| 1`
default — all three land on 1, so `none` (absent / NaN) and `some 0` both
map to 1, and any other number passes through. -/
def simSize (size : JsNum) : ℚ :=
  match size with
  | none => 1
  | some q => if q = 0 then 1 else q

/-- `emitFillFromOrder(ord)`: a deterministic full fill copying the order's
routing fields with `px = estPx` and `requestedSize = filledSize = size`.
`orders.new` messages built by the executor carry no `mode` key, so the
copied `mode` is absent. -/
def emitFillFromOrder (ord : Executor.OrderMsg) (nowTs : ℚ) : Executor.FillMsg :=
  let size := simSize ord.leg.size
  { id := some ord.id, ts := nowTs,
    payload := { corrId := some ord.corrId, legIndex := ord.legIndex,
                 exchange := some ord.leg.exchange,
                 instrumentId := some ord.leg.instrumentId,
                 side := ord.leg.side, px := ord.leg.estPx,
                 requestedSize := some size, filledSize := some size,
                 mode := none } }

end CryptoBot.OrderSim

namespace CryptoBot.Assembler

/-- A pending join-buffer record: `{legs: [fills], ts, mode}`. -/
structure PendingRec where
  legs : List Executor.FillMsg
  ts : ℚ
  mode : String
  deriving Repr, DecidableEq

/-- `upsertFill(fill)`: push the fill onto the corrId's record, refresh `ts`
(`fill?.ts || rec.ts`) and `mode` (only when the fill provides a truthy one),
store the record back, and — as soon as it holds two or more fills, before
any side check — delete the pending entry and hand the record out. -/
def upsertFill (pending : List (String × PendingRec)) (fill : Executor.FillMsg)
    (nowTs : ℚ) : List (String × PendingRec) × Option PendingRec :=
  match fill.payload.corrId with
  | none => (pending, none)
  | some corr =>
      let r0 := (mapLookup pending corr).getD { legs := [], ts := nowTs, mode := "paper" }
      let r : PendingRec :=
        { legs := r0.legs ++ [fill],
          ts := jsOrQ fill.ts r0.ts,
          mode := match fill.payload.mode with
                  | some m => if m = "" then r0.mode else m
                  | none => r0.mode }
      let p1 := mapSet pending corr r
      if r.legs.length ≥ 2 then (mapDelete p1 corr, some r) else (p1, none)

/-- A trade leg as mapped from a fill by `computeTradeFromFills`. -/
structure AsmLeg where
  exchange : Option String
  instrumentId : Option String
  side : String
  px : JsNum
  size : ℚ
  deriving Repr, DecidableEq

/-- The per-fill leg projection: upper-cased side, `Number(px)` (NaN when
absent), `Number(filledSize || 0)`. -/
def toAsmLeg (f : Executor.FillMsg) : AsmLeg :=
  { exchange := f.payload.exchange, instrumentId := f.payload.instrumentId,
    side := jsUpper f.payload.side, px := f.payload.px,
    size := safeNum f.payload.filledSize 0 }

/-- `computeTradeFromFills(rec)`: require two legs with one BUY and one SELL,
then `realizedPnl = (sell.px − buy.px) · min(buy.size, sell.size)` with the
`Number.isFinite` fallback to 0 when a px was NaN.  The emitted object
literal is `{ts, mode, legs, realizedPnl}` — it has no `taken`, `approved` or
`source` key. -/
def computeTradeFromFills (r : PendingRec) : Option (Trade AsmLeg) :=
  let legs := r.legs.map toAsmLeg
  if legs.length < 2 then none
  else
    match legs.find? (fun l => l.side == "BUY"), legs.find? (fun l => l.side == "SELL") with
    | some buy, some sell =>
        let size := min buy.size sell.size
        let realized : JsNum :=
          match sell.px, buy.px with
          | some sp, some bp => some ((sp - bp) * size)
          | _, _ => none
        some { ts := r.ts, mode := r.mode, legs := legs,
               realizedPnl := realized.getD 0,
               taken := none, approved := none, source := none }
    | _, _ => none

/-- Result of handling one Fill in the assembler's `run` loop. -/
structure AsmStep where
  pending : List (String × PendingRec)
  emitted : List (Trade AsmLeg)
  acked : Bool
  deriving Repr, DecidableEq

/-- The `run` loop body for one parsed Fill: upsert, and when a record joins,
persist and publish the computed trade (if the side check passes).  The
message is acknowledged on every path. -/
def processFillMsg (pending : List (String × PendingRec)) (fill : Executor.FillMsg)
    (nowTs : ℚ) : AsmStep :=
  let u := upsertFill pending fill nowTs
  match u.2 with
  | some r =>
      match computeTradeFromFills r with
      | some t => { pending := u.1, emitted := [t], acked := true }
      | none => { pending := u.1, emitted := [], acked := true }
  | none => { pending := u.1, emitted := [], acked := true }

end CryptoBot.Assembler

namespace CryptoBot.Ex

/-- A costs object with no keys present. -/
def noCosts : Costs := { fees := none, slippage := none, borrow := none }

/-- The BUY leg of the running example (scenario S1 of the spec). -/
def legBuy : Leg :=
  { exchange := "binance", instrumentId := "BTCUSDT", side := "BUY",
    estPx := some 100, feeBps := some 10, size := some 1 }

/-- The SELL leg of the running example. -/
def legSell : Leg :=
  { exchange := "bybit", instrumentId := "BTCUSDT", side := "SELL",
    estPx := some 101, feeBps := some 10, size := some 1 }

/-- The running example Opportunity (spec scenario S1), already approved. -/
def oppEx : Opportunity :=
  { id := some "opp-1", corrId := some "corr-1", ts := 1, approved := some true,
    risk := none,
    payload := { edgeBps := some 250, legs := [legBuy, legSell], paper := true,
                 costs := noCosts } }

/-- A fill message for the running example. -/
def fillAt (corr : String) (idx : ℕ) (side : String) (px sz : ℚ) : Executor.FillMsg :=
  { id := none, ts := 2,
    payload := { corrId := some corr, legIndex := idx, exchange := none,
                 instrumentId := none, side := side, px := some px,
                 requestedSize := some sz, filledSize := some sz, mode := none } }

/-- Executor state with trading on and nothing inflight. -/
def sOn : Executor.ExecState := { autoTrade := true, mode := "paper", inflight := [] }

/-- Executor state with trading off and nothing inflight. -/
def sOff : Executor.ExecState := { autoTrade := false, mode := "paper", inflight := [] }

/-- A deterministic fresh-id supply standing in for `uuidv4()`. -/
def fr : ℕ → String := fun n => "uuid-" ++ toString n

/-- Stream contents with one approved Opportunity waiting and no candidates. -/
def streamsApprovedOnly : Executor.StreamsIn :=
  { arbOpportunities := [], arbApproved := [oppEx] }

/-- An inflight entry for the running example, legs already protective-first. -/
def entryFlight : Executor.Inflight :=
  { opp := oppEx, legs := [legSell, legBuy], fills := [], startedTs := 1 }

/-- Executor state with trading on and the running example inflight. -/
def sFlight : Executor.ExecState :=
  { autoTrade := true, mode := "paper", inflight := [("corr-1", entryFlight)] }

/-- A `POST /toggles` body `{"autoTrade": false}`. -/
def bodyOff : Executor.TogglesBody := { autoTrade := some false, mode := none }

/-- The leg-0 fill of the running example (SELL leg filled at 101). -/
def fillSell0 : Executor.FillMsg := fillAt "corr-1" 0 "SELL" 101 1

/-- The terminal leg-1 fill of the running example (BUY leg filled at 100). -/
def fillBuy1 : Executor.FillMsg := fillAt "corr-1" 1 "BUY" 100 1

/-- Both fills of the running example, as the inflight sparse array. -/
def fillsDone : List (ℕ × Executor.FillMsg) := [(0, fillSell0), (1, fillBuy1)]

/-- Executor state awaiting the terminal fill of the running example. -/
def sAwaitLeg1 : Executor.ExecState :=
  { autoTrade := true, mode := "paper",
    inflight := [("corr-1", { opp := oppEx, legs := [legSell, legBuy],
                              fills := [(0, fillSell0)], startedTs := 1 })] }

/-- A leg-0 fill with `filledSize = 0` (spec scenario S2). -/
def fillZero0 : Executor.FillMsg := fillAt "corr-1" 0 "SELL" 101 0

/-- A leg whose `size` key holds a negative number. -/
def legNegSize : Leg :=
  { exchange := "binance", instrumentId := "BTCUSDT", side := "SELL",
    estPx := some 101, feeBps := some 10, size := some (-1) }

/-- An Order for the negative-size leg (leg 0 of corr-9). -/
def ordNeg : Executor.OrderMsg :=
  { id := "ord-9", ts := 0, corrId := "corr-9", legIndex := 0, tif := "IOC",
    leg := legNegSize }

/-- An Order whose leg carries `size: 0`. -/
def ordZero : Executor.OrderMsg :=
  { id := "ord-0", ts := 0, corrId := "corr-0", legIndex := 0, tif := "IOC",
    leg := { legNegSize with size := some 0 } }

/-- Executor state with a two-leg entry inflight under corr-9. -/
def sNeg : Executor.ExecState :=
  { autoTrade := true, mode := "paper",
    inflight := [("corr-9", { opp := oppEx, legs := [legNegSize, legBuy],
                              fills := [], startedTs := 0 })] }

/-- Fully permissive scanner thresholds (the env defaults) with no fees. -/
def cfg0 : Scanner.ScanCfg :=
  { ex1TakerBps := 0, ex2TakerBps := 0, minNetBps := 0, minGrossBps := 0,
    minAbsSpread := 0, minNotional := 0, maxBookAgeMs := 2000 }

/-- A fresh book whose bid and ask are both 0 (falsy). -/
def bookZeroAsk : Scanner.Book := { bid := 0, ask := 0, ts := 0 }

/-- A fresh book quoting bid 1 with ask 0. -/
def bookBidOne : Scanner.Book := { bid := 1, ask := 0, ts := 0 }

/-- Scanner thresholds with the default 10 bps taker fee per venue. -/
def cfgW : Scanner.ScanCfg :=
  { ex1TakerBps := 10, ex2TakerBps := 10, minNetBps := 0, minGrossBps := 0,
    minAbsSpread := 0, minNotional := 0, maxBookAgeMs := 2000 }

/-- Book on venue 1 for the boundary-age witness (age exactly 2000 ms at
`tNow = 2000`). -/
def bW1 : Scanner.Book := { bid := 100, ask := 100, ts := 0 }

/-- Book on venue 2 for the boundary-age witness. -/
def bW2 : Scanner.Book := { bid := 101, ask := 102, ts := 0 }

/-- BUY fill of the assembler join example (corr c4, size 1 at 100). -/
def fB4 : Executor.FillMsg := fillAt "c4" 0 "BUY" 100 1

/-- SELL fill of the assembler join example (corr c4, size 2 at 101). -/
def fS4 : Executor.FillMsg := fillAt "c4" 1 "SELL" 101 2

/-- First BUY fill of the same-side example (corr c10). -/
def fBa : Executor.FillMsg := fillAt "c10" 0 "BUY" 100 1

/-- Second BUY fill of the same-side example (corr c10). -/
def fBb : Executor.FillMsg := fillAt "c10" 1 "BUY" 100 1

/-- A third, late fill for corr c10. -/
def fBc : Executor.FillMsg := fillAt "c10" 0 "BUY" 99 1

/-- A risk policy that admits paper mode, with the default thresholds. -/
def cfgOkW : RiskEngine.RiskCfg :=
  { edgeMinBps := 20, netMinBps := 0, maxTotalSize := 10,
    requireBothSides := true, allowPaperOnly := true }

end CryptoBot.Ex

namespace CryptoBot

theorem mapLookup_mapSet_self {α : Type} (m : List (String × α)) (k : String) (v : α) :
    mapLookup (mapSet m k v) k = some v := by
  induction m with
  | nil => simp [mapSet, mapLookup]
  | cons p rest ih =>
      obtain ⟨k', v'⟩ := p
      by_cases h : k' = k
      · simp [mapSet, h, mapLookup]
      · simp [mapSet, h, mapLookup, ih]

theorem mapLookup_mapDelete_self {α : Type} (m : List (String × α)) (k : String) :
    mapLookup (mapDelete m k) k = none := by
  induction m with
  | nil => simp [mapDelete, mapLookup]
  | cons p rest ih =>
      obtain ⟨k', v'⟩ := p
      by_cases h : k' = k
      · simpa [mapDelete, h, mapLookup] using ih
      · simpa [mapDelete, h, mapLookup] using ih

end CryptoBot

namespace CryptoBot.Executor

theorem findSellIdx_append (pre post : List Leg) (s : Leg)
    (hpre : ∀ l ∈ pre, isSellLeg l = false) (hs : isSellLeg s = true) :
    findSellIdx (pre ++ s :: post) = some pre.length := by
  induction pre with
  | nil => simp [findSellIdx, hs]
  | cons a rest ih =>
      have ha : isSellLeg a = false := hpre a (by simp)
      have := ih (fun l hl => hpre l (by simp [hl]))
      simp [findSellIdx, ha, this]

theorem findSellIdx_none (legs : List Leg)
    (h : ∀ l ∈ legs, isSellLeg l = false) : findSellIdx legs = none := by
  induction legs with
  | nil => rfl
  | cons a rest ih =>
      have ha : isSellLeg a = false := h a (by simp)
      simp [findSellIdx, ha, ih (fun l hl => h l (by simp [hl]))]

theorem get?_append_length (pre post : List Leg) (s : Leg) :
    (pre ++ s :: post).get? pre.length = some s := by
  induction pre with
  | nil => rfl
  | cons a rest ih => simpa using ih

theorem eraseIdx_append_length (pre post : List Leg) (s : Leg) :
    (pre ++ s :: post).eraseIdx pre.length = pre ++ post := by
  induction pre with
  | nil => rfl
  | cons a rest ih => simp [List.eraseIdx, ih]

end CryptoBot.Executor

namespace CryptoBot.Executor

/-- C8: `protectiveFirst` is a pure reordering: when the legs decompose as a
SELL-free block, the first SELL leg, and a tail, the result moves that SELL
leg to index 0 and keeps every other leg in its original relative order; a
list with no SELL leg is returned unchanged. -/
theorem protectiveFirst_spec (legs pre post : List Leg) (s : Leg) :
    (legs = pre ++ s :: post → (∀ l ∈ pre, isSellLeg l = false) →
       isSellLeg s = true → protectiveFirst legs = s :: (pre ++ post)) ∧
    ((∀ l ∈ legs, isSellLeg l = false) → protectiveFirst legs = legs) := by
  constructor
  · rintro rfl hpre hs
    unfold protectiveFirst
    simp only [findSellIdx_append pre post s hpre hs, get?_append_length pre post s,
               eraseIdx_append_length pre post s]
  · intro h
    unfold protectiveFirst
    rw [findSellIdx_none legs h]

/-- Witness for C8 on the S1 legs: the SELL leg moves to the front, and a
SELL-free list is unchanged. -/
theorem protectiveFirst_spec_witness :
    protectiveFirst [Ex.legBuy, Ex.legSell] = [Ex.legSell, Ex.legBuy] ∧
    protectiveFirst [Ex.legBuy] = [Ex.legBuy] :=
  ⟨(protectiveFirst_spec [Ex.legBuy, Ex.legSell] [Ex.legBuy] [] Ex.legSell).1 rfl
      (by decide) (by decide),
   (protectiveFirst_spec [Ex.legBuy] [Ex.legBuy] [] Ex.legSell).2 (by decide)⟩

/-- C1 (amended): `consumeOpportunities` reads `arb.opportunities` and only
when `autoTrade=true`; when `autoTrade=false` it reads neither stream, and
the content of `arb.approved` never influences the cycle in any mode. -/
theorem consumeOpportunities_stream_selection
    (s : ExecState) (streams streams' : StreamsIn)
    (fc fo : ℕ → String) (nowTs : ℚ) :
    (s.autoTrade = false →
        consumeOpportunities s streams fc fo nowTs =
          { state := s, orders := [], consumed := [] }) ∧
    (streams.arbOpportunities = streams'.arbOpportunities →
        consumeOpportunities s streams fc fo nowTs =
          consumeOpportunities s streams' fc fo nowTs) ∧
    (s.autoTrade = true →
        (consumeOpportunities s streams fc fo nowTs).consumed =
          streams.arbOpportunities) := by
  unfold consumeOpportunities tradingEnabled
  refine ⟨fun h => by simp [h], fun h => by rw [h], fun h => by simp [h]⟩

/-- Witness for C1 (amended): with trading off nothing is consumed; with
trading on the pending candidate batch is consumed, and enlarging
`arb.approved` changes nothing. -/
theorem consumeOpportunities_stream_selection_witness :
    (consumeOpportunities Ex.sOff Ex.streamsApprovedOnly Ex.fr Ex.fr 0 =
      { state := Ex.sOff, orders := [], consumed := [] }) ∧
    (consumeOpportunities Ex.sOn { arbOpportunities := [Ex.oppEx], arbApproved := [] }
        Ex.fr Ex.fr 0 =
      consumeOpportunities Ex.sOn { arbOpportunities := [Ex.oppEx], arbApproved := [Ex.oppEx] }
        Ex.fr Ex.fr 0) ∧
    (consumeOpportunities Ex.sOn { arbOpportunities := [Ex.oppEx], arbApproved := [] }
        Ex.fr Ex.fr 0).consumed = [Ex.oppEx] :=
  ⟨(consumeOpportunities_stream_selection Ex.sOff Ex.streamsApprovedOnly
      Ex.streamsApprovedOnly Ex.fr Ex.fr 0).1 rfl,
   (consumeOpportunities_stream_selection Ex.sOn
      { arbOpportunities := [Ex.oppEx], arbApproved := [] }
      { arbOpportunities := [Ex.oppEx], arbApproved := [Ex.oppEx] } Ex.fr Ex.fr 0).2.1 rfl,
   (consumeOpportunities_stream_selection Ex.sOn
      { arbOpportunities := [Ex.oppEx], arbApproved := [] }
      { arbOpportunities := [Ex.oppEx], arbApproved := [] } Ex.fr Ex.fr 0).2.2 rfl⟩

/-- C1 counterexample: in manual mode (`autoTrade=false`) an Opportunity
waiting on `arb.approved` is not consumed — the cycle reads nothing and the
state is unchanged, refuting the claimed approved-stream fallback. -/
theorem consumeOpportunities_manual_counterexample :
    Ex.streamsApprovedOnly.arbApproved = [Ex.oppEx] ∧
    Ex.sOff.autoTrade = false ∧
    (consumeOpportunities Ex.sOff Ex.streamsApprovedOnly Ex.fr Ex.fr 0).consumed = [] ∧
    (consumeOpportunities Ex.sOff Ex.streamsApprovedOnly Ex.fr Ex.fr 0).state = Ex.sOff := by
  refine ⟨rfl, rfl, ?_, ?_⟩ <;>
    simp [consumeOpportunities, tradingEnabled, Ex.sOff]

/-- C7: a Fill for leg 0 with `filledSize = 0` matching an inflight corrId
removes the inflight entry, sends no Order for leg 1 and emits no Trade. -/
theorem zero_fill_abort (s : ExecState) (minPnl : ℚ) (f : FillMsg) (nowTs : ℚ)
    (oid corr : String) (st : Inflight)
    (hc : f.payload.corrId = some corr)
    (hl : f.payload.legIndex = 0)
    (hz : f.payload.filledSize = some 0)
    (hin : mapLookup s.inflight corr = some st) :
    (processFill s minPnl f nowTs oid).state.inflight = mapDelete s.inflight corr ∧
    mapLookup (processFill s minPnl f nowTs oid).state.inflight corr = none ∧
    (processFill s minPnl f nowTs oid).orders = [] ∧
    (processFill s minPnl f nowTs oid).emitted = [] := by
  simp only [processFill, hc, hin, hl, hz, safeNum, Option.getD_some]
  simp [mapLookup_mapDelete_self]

/-- Witness for C7: scenario S2 at a concrete state. -/
theorem zero_fill_abort_witness :
    (processFill Ex.sFlight 0 Ex.fillZero0 0 "oid-1").state.inflight =
      mapDelete Ex.sFlight.inflight "corr-1" ∧
    mapLookup (processFill Ex.sFlight 0 Ex.fillZero0 0 "oid-1").state.inflight "corr-1" = none ∧
    (processFill Ex.sFlight 0 Ex.fillZero0 0 "oid-1").orders = [] ∧
    (processFill Ex.sFlight 0 Ex.fillZero0 0 "oid-1").emitted = [] :=
  zero_fill_abort Ex.sFlight 0 Ex.fillZero0 0 "oid-1" "corr-1" Ex.entryFlight rfl rfl rfl rfl

end CryptoBot.Executor

namespace CryptoBot

theorem jsUpper_BUY : jsUpper "BUY" = "BUY" := by decide

theorem jsUpper_SELL : jsUpper "SELL" = "SELL" := by decide

theorem parseBool_false : Executor.parseBool "false" true = false := by decide

theorem buy_ne_sell : ("BUY" : String) ≠ "SELL" := by decide

theorem sell_ne_buy : ("SELL" : String) ≠ "BUY" := by decide

theorem buy_beq_sell : (("BUY" : String) == "SELL") = false := by decide

theorem sell_beq_buy : (("SELL" : String) == "BUY") = false := by decide

theorem buy_beq_buy : (("BUY" : String) == "BUY") = true := by decide

theorem sell_beq_sell : (("SELL" : String) == "SELL") = true := by decide

end CryptoBot

namespace CryptoBot.Executor

/-- C3: behavior of the two `autoTrade` write paths on the falling edge.  The
`POST /toggles` handler flips the in-memory toggle to `false` but leaves the
inflight table intact, and the subsequent periodic refresh reads back the
very value the handler just wrote, sees no change, and does not clear it
either — while the refresh path itself does clear on its own falling edge,
and a disabled executor reads neither input stream. -/
theorem toggles_falling_edge_behavior :
    Ex.sFlight.autoTrade = true ∧ Ex.sFlight.inflight ≠ [] ∧
    (postToggles Ex.sFlight Ex.bodyOff).state.autoTrade = false ∧
    (postToggles Ex.sFlight Ex.bodyOff).state.inflight = Ex.sFlight.inflight ∧
    (postToggles Ex.sFlight Ex.bodyOff).kvAutoTrade = some "false" ∧
    refreshToggles (postToggles Ex.sFlight Ex.bodyOff).state (some "false") none =
      (postToggles Ex.sFlight Ex.bodyOff).state ∧
    (refreshToggles Ex.sFlight (some "false") none).autoTrade = false ∧
    (refreshToggles Ex.sFlight (some "false") none).inflight = [] ∧
    (consumeFills (postToggles Ex.sFlight Ex.bodyOff).state 0 [Ex.fillBuy1] 0 Ex.fr).consumed = [] ∧
    (consumeOpportunities (postToggles Ex.sFlight Ex.bodyOff).state
        { arbOpportunities := [Ex.oppEx], arbApproved := [Ex.oppEx] }
        Ex.fr Ex.fr 0).consumed = [] := by
  decide

end CryptoBot.Executor

namespace CryptoBot.Executor

/-- C2: evidence against the code: on the profitable S1 scenario the PnL gate
passes (`realizedPnl = 1 > MIN_REALIZED_PNL = 0`), yet `emitTrade` throws on
the unbound identifier `approved` while building the trade literal, so the
terminal fill emits no Trade at all — and the catch-all handler even leaves
the inflight entry behind. -/
theorem emitTrade_unbound_approved :
    computePnlFromFills Ex.oppEx Ex.fillsDone = 1 ∧
    (1 : ℚ) > 0 ∧
    emitTrade Ex.sOn 0 Ex.oppEx Ex.fillsDone 2 =
      .thrown "ReferenceError: approved is not defined" ∧
    (processFill Ex.sAwaitLeg1 0 Ex.fillBuy1 2 "oid-1").emitted = [] ∧
    mapLookup (processFill Ex.sAwaitLeg1 0 Ex.fillBuy1 2 "oid-1").state.inflight
      "corr-1" ≠ none := by
  have hpnl : computePnlFromFills Ex.oppEx Ex.fillsDone = 1 := by
    simp [computePnlFromFills, grossQty, Ex.fillsDone, Ex.fillSell0, Ex.fillBuy1,
          Ex.fillAt, Ex.oppEx, Ex.legBuy, Ex.legSell, Ex.noCosts, safeNum,
          jsUpper_BUY, jsUpper_SELL, buy_ne_sell, sell_ne_buy, buy_beq_sell,
          sell_beq_buy, buy_beq_buy, sell_beq_sell]
    norm_num
  have hemit : emitTrade Ex.sOn 0 Ex.oppEx Ex.fillsDone 2 =
      .thrown "ReferenceError: approved is not defined" := by
    simp [emitTrade, tradingEnabled, Ex.sOn, hpnl, moduleApprovedBinding]
  refine ⟨hpnl, by norm_num, hemit, ?_, ?_⟩
  · norm_num [processFill, Ex.sAwaitLeg1, Ex.fillBuy1, Ex.fillAt, mapLookup, setFill,
              Ex.fillSell0, emitTrade, tradingEnabled, Ex.sOn, moduleApprovedBinding,
              computePnlFromFills, grossQty, safeNum, Ex.oppEx, Ex.legBuy, Ex.legSell,
              Ex.noCosts, jsUpper_BUY, jsUpper_SELL, buy_ne_sell, sell_ne_buy,
              buy_beq_sell, sell_beq_buy, buy_beq_buy, sell_beq_sell]
  · norm_num [processFill, Ex.sAwaitLeg1, Ex.fillBuy1, Ex.fillAt, mapLookup, setFill,
              Ex.fillSell0, emitTrade, tradingEnabled, Ex.sOn, moduleApprovedBinding,
              computePnlFromFills, grossQty, safeNum, Ex.oppEx, Ex.legBuy, Ex.legSell,
              Ex.noCosts, jsUpper_BUY, jsUpper_SELL, mapSet, buy_ne_sell, sell_ne_buy,
              buy_beq_sell, sell_beq_buy, buy_beq_buy, sell_beq_sell]
    simp

end CryptoBot.Executor

namespace CryptoBot.OrderSim

/-- C9 (amended): the simulator's full fill carries
`requestedSize = filledSize = Number(size ?? 1) || 1`, which is never 0 and
equals 1 whenever the Order's `size` is missing, NaN or 0; the executor's
abort branch is therefore unreachable from a simulator fill for any Order
with a non-negative size — but never because of a literal zero fill. -/
theorem simulator_fill_size_spec (ord : Executor.OrderMsg) (nowTs : ℚ) :
    (emitFillFromOrder ord nowTs).payload.requestedSize =
      some (simSize ord.leg.size) ∧
    (emitFillFromOrder ord nowTs).payload.filledSize =
      some (simSize ord.leg.size) ∧
    simSize ord.leg.size ≠ 0 ∧
    ((ord.leg.size = none ∨ ord.leg.size = some 0) → simSize ord.leg.size = 1) ∧
    (∀ q : ℚ, ord.leg.size = some q → 0 ≤ q → 0 < simSize ord.leg.size) := by
  refine ⟨rfl, rfl, ?_, ?_, ?_⟩
  · cases hsz : ord.leg.size with
    | none => simp [simSize]
    | some q =>
        by_cases hq : q = 0 <;> simp [simSize, hq]
  · rintro (h | h) <;> simp [simSize, h]
  · intro q hq hq0
    rw [hq]
    by_cases h0 : q = 0
    · simp [simSize, h0]
    · simpa [simSize, h0] using lt_of_le_of_ne hq0 (Ne.symm h0)

/-- Witness for C9 (amended) at an Order with `size: 0`. -/
theorem simulator_fill_size_spec_witness :
    simSize Ex.ordZero.leg.size = 1 ∧ 0 < simSize Ex.ordZero.leg.size :=
  ⟨(simulator_fill_size_spec Ex.ordZero 0).2.2.2.1 (Or.inr rfl),
   (simulator_fill_size_spec Ex.ordZero 0).2.2.2.2 0 rfl le_rfl⟩

/-- C9 counterexample: an Order with `size: -1` yields a simulator fill with
`filledSize = -1 ≠ 0`, and that fill still reaches the executor's zero-fill
abort branch — the inflight entry is removed and no leg-1 Order is sent even
though a second leg exists — so the branch is not unreachable via simulator
fills. -/
theorem simulator_abort_reachable_counterexample :
    (emitFillFromOrder Ex.ordNeg 0).payload.filledSize = some (-1) ∧
    some (-1 : ℚ) ≠ some (0 : ℚ) ∧
    (mapLookup Ex.sNeg.inflight "corr-9").isSome = true ∧
    (Executor.processFill Ex.sNeg 0 (emitFillFromOrder Ex.ordNeg 0) 0 "oid-9").orders = [] ∧
    (Executor.processFill Ex.sNeg 0 (emitFillFromOrder Ex.ordNeg 0) 0 "oid-9").emitted = [] ∧
    mapLookup (Executor.processFill Ex.sNeg 0
        (emitFillFromOrder Ex.ordNeg 0) 0 "oid-9").state.inflight "corr-9" = none := by
  norm_num [emitFillFromOrder, simSize, Ex.ordNeg, Ex.legNegSize, Executor.processFill,
            Ex.sNeg, mapLookup, safeNum, Executor.setFill, mapDelete, Ex.oppEx,
            Ex.legBuy, List.filter]

end CryptoBot.OrderSim

namespace CryptoBot.Scanner

/-- C6 (amended): in a scan tick, a pair with both books present is skipped
entirely when either book's age strictly exceeds `MAX_BOOK_AGE_MS` (equality
is non-stale); otherwise each directional path emits a candidate if and only
if the JS-truthiness guard on its buy-side ask and sell-side bid holds (both
nonzero) and the four inclusive thresholds pass — all still subject to the
downstream token bucket inside `emitOpp`. -/
theorem scanPair_admission (cfg : ScanCfg) (tNow : ℚ) (c l1 l2 : String)
    (b1 b2 : Book) :
    ((tNow - b1.ts > cfg.maxBookAgeMs ∨ tNow - b2.ts > cfg.maxBookAgeMs) →
        scanPair cfg tNow c l1 l2 b1 b2 = []) ∧
    (¬ (tNow - b1.ts > cfg.maxBookAgeMs ∨ tNow - b2.ts > cfg.maxBookAgeMs) →
        scanPair cfg tNow c l1 l2 b1 b2 =
          (pathAOpp cfg c l1 l2 b1 b2).toList ++ (pathBOpp cfg c l1 l2 b1 b2).toList) ∧
    ((pathAOpp cfg c l1 l2 b1 b2).isSome =
       (decide (b1.ask ≠ 0) && decide (b2.bid ≠ 0) &&
        admitGate cfg (calcEdge b1.ask cfg.ex1TakerBps b2.bid cfg.ex2TakerBps))) ∧
    ((pathBOpp cfg c l1 l2 b1 b2).isSome =
       (decide (b2.ask ≠ 0) && decide (b1.bid ≠ 0) &&
        admitGate cfg (calcEdge b2.ask cfg.ex2TakerBps b1.bid cfg.ex1TakerBps))) := by
  refine ⟨fun h => by simp [scanPair, h], fun h => by simp [scanPair, h], ?_, ?_⟩
  · by_cases h1 : b1.ask ≠ 0 ∧ b2.bid ≠ 0
    · obtain ⟨ha, hb⟩ := h1
      cases hg : admitGate cfg (calcEdge b1.ask cfg.ex1TakerBps b2.bid cfg.ex2TakerBps) <;>
        simp [pathAOpp, ha, hb, hg]
    · rw [not_and_or] at h1
      rcases h1 with h | h
      · simp [pathAOpp, not_not.mp h]
      · simp [pathAOpp, not_not.mp h]
  · by_cases h1 : b2.ask ≠ 0 ∧ b1.bid ≠ 0
    · obtain ⟨ha, hb⟩ := h1
      cases hg : admitGate cfg (calcEdge b2.ask cfg.ex2TakerBps b1.bid cfg.ex1TakerBps) <;>
        simp [pathBOpp, ha, hb, hg]
    · rw [not_and_or] at h1
      rcases h1 with h | h
      · simp [pathBOpp, not_not.mp h]
      · simp [pathBOpp, not_not.mp h]

/-- Witness for C6 (amended): at book age exactly `MAX_BOOK_AGE_MS` the pair
is scanned (boundary is non-stale) and path A admits. -/
theorem scanPair_admission_witness :
    (2000 : ℚ) - Ex.bW1.ts = Ex.cfgW.maxBookAgeMs ∧
    scanPair Ex.cfgW 2000 "BTC-X" "binance" "bybit" Ex.bW1 Ex.bW2 ≠ [] := by
  refine ⟨by norm_num [Ex.bW1, Ex.cfgW], ?_⟩
  rw [(scanPair_admission Ex.cfgW 2000 "BTC-X" "binance" "bybit" Ex.bW1 Ex.bW2).2.1
      (by norm_num [Ex.bW1, Ex.bW2, Ex.cfgW])]
  norm_num [pathAOpp, pathBOpp, Ex.bW1, Ex.bW2, Ex.cfgW, admitGate, calcEdge]

/-- C6 counterexample: a present, fresh book pair whose path-A thresholds all
pass (`grossBps = 20000 ≥ 0`, `netBps ≥ 0`, `abs = 1 ≥ 0`, `mid = 1/2 ≥ 0`)
yet nothing is emitted, because the buy-side ask is 0 and the JS truthiness
guard `if (b1.ask && b2.bid)` skips the path — refuting the claimed
iff-characterization by thresholds alone. -/
theorem scanner_truthiness_counterexample :
    admitGate Ex.cfg0 (calcEdge Ex.bookZeroAsk.ask Ex.cfg0.ex1TakerBps
      Ex.bookBidOne.bid Ex.cfg0.ex2TakerBps) = true ∧
    ¬ ((0 : ℚ) - Ex.bookZeroAsk.ts > Ex.cfg0.maxBookAgeMs ∨
       (0 : ℚ) - Ex.bookBidOne.ts > Ex.cfg0.maxBookAgeMs) ∧
    scanPair Ex.cfg0 0 "BTC-X" "binance" "bybit" Ex.bookZeroAsk Ex.bookBidOne = [] := by
  refine ⟨?_, ?_, ?_⟩ <;>
    norm_num [admitGate, calcEdge, scanPair, pathAOpp, pathBOpp, Ex.cfg0,
              Ex.bookZeroAsk, Ex.bookBidOne]

end CryptoBot.Scanner

namespace CryptoBot.Assembler

theorem processFillMsg_pending (p : List (String × PendingRec))
    (f : Executor.FillMsg) (t : ℚ) :
    (processFillMsg p f t).pending = (upsertFill p f t).1 := by
  unfold processFillMsg
  rcases h : (upsertFill p f t).2 with _ | r
  · simp [h]
  · rcases h2 : computeTradeFromFills r with _ | tr <;> simp [h, h2]

theorem processFillMsg_acked (p : List (String × PendingRec))
    (f : Executor.FillMsg) (t : ℚ) :
    (processFillMsg p f t).acked = true := by
  unfold processFillMsg
  rcases h : (upsertFill p f t).2 with _ | r
  · simp [h]
  · rcases h2 : computeTradeFromFills r with _ | tr <;> simp [h, h2]

/-- C4 (amended): when exactly two Fills with the same corrId — one BUY and
one SELL — reach the assembler, the first join step emits nothing, the second
emits exactly one Trade with `realizedPnl = (sell.px − buy.px) ·
min(buy.filledSize, sell.filledSize)` (persisted and published), the pending
entry for the corrId is deleted — and the emitted Trade carries no `source`
key at all (in particular not `source="assembler"`). -/
theorem assembler_join_spec
    (p0 : List (String × PendingRec)) (f1 f2 : Executor.FillMsg)
    (corr : String) (t1 t2 q1 q2 : ℚ)
    (h0 : mapLookup p0 corr = none)
    (hc1 : f1.payload.corrId = some corr)
    (hc2 : f2.payload.corrId = some corr)
    (hp1 : f1.payload.px = some q1)
    (hp2 : f2.payload.px = some q2) :
    (processFillMsg p0 f1 t1).emitted = [] ∧
    mapLookup (processFillMsg (processFillMsg p0 f1 t1).pending f2 t2).pending corr = none ∧
    (jsUpper f1.payload.side = "BUY" → jsUpper f2.payload.side = "SELL" →
       (processFillMsg (processFillMsg p0 f1 t1).pending f2 t2).emitted.map
           (fun t => (t.realizedPnl, t.source)) =
         [((q2 - q1) * min (safeNum f1.payload.filledSize 0)
             (safeNum f2.payload.filledSize 0), none)]) ∧
    (jsUpper f1.payload.side = "SELL" → jsUpper f2.payload.side = "BUY" →
       (processFillMsg (processFillMsg p0 f1 t1).pending f2 t2).emitted.map
           (fun t => (t.realizedPnl, t.source)) =
         [((q1 - q2) * min (safeNum f2.payload.filledSize 0)
             (safeNum f1.payload.filledSize 0), none)]) := by
  refine ⟨?_, ?_, ?_, ?_⟩
  · simp [processFillMsg, upsertFill, hc1, h0]
  · rw [processFillMsg_pending]
    simp [processFillMsg_pending, upsertFill, hc1, hc2, h0, mapLookup_mapSet_self,
          mapLookup_mapDelete_self]
  · intro hs1 hs2
    simp [processFillMsg, processFillMsg_pending, upsertFill, hc1, hc2, h0,
          mapLookup_mapSet_self, mapLookup_mapDelete_self, computeTradeFromFills,
          toAsmLeg, hs1, hs2, hp1, hp2, buy_beq_sell, sell_beq_buy, buy_beq_buy,
          sell_beq_sell, safeNum]
  · intro hs1 hs2
    simp [processFillMsg, processFillMsg_pending, upsertFill, hc1, hc2, h0,
          mapLookup_mapSet_self, mapLookup_mapDelete_self, computeTradeFromFills,
          toAsmLeg, hs1, hs2, hp1, hp2, buy_beq_sell, sell_beq_buy, buy_beq_buy,
          sell_beq_sell, safeNum]

end CryptoBot.Assembler

namespace CryptoBot.Assembler

/-- Witness for C4 (amended) at the concrete BUY@100/size-1, SELL@101/size-2
pair: one trade with `realizedPnl = (101 − 100) · min(1, 2) = 1` and no
`source` key; the pending entry is gone. -/
theorem assembler_join_spec_witness :
    (processFillMsg [] Ex.fB4 0).emitted = [] ∧
    (processFillMsg (processFillMsg [] Ex.fB4 0).pending Ex.fS4 0).emitted.map
        (fun t => (t.realizedPnl, t.source)) =
      [(((101 : ℚ) - 100) * min (1 : ℚ) 2, none)] ∧
    mapLookup (processFillMsg (processFillMsg [] Ex.fB4 0).pending Ex.fS4 0).pending
      "c4" = none := by
  have h := assembler_join_spec [] Ex.fB4 Ex.fS4 "c4" 0 0 100 101 rfl rfl rfl rfl rfl
  refine ⟨h.1, ?_, h.2.1⟩
  rw [h.2.2.1 (by decide) (by decide)]
  norm_num [Ex.fB4, Ex.fS4, Ex.fillAt, safeNum]

/-- C4 counterexample: at the same concrete input the single emitted Trade's
`source` is absent, not `"assembler"` — refuting the claimed source field. -/
theorem assembler_no_source_counterexample :
    (processFillMsg (processFillMsg [] Ex.fB4 0).pending Ex.fS4 0).emitted.map
        (fun t => (t.realizedPnl, t.source)) = [(1, none)] ∧
    (processFillMsg (processFillMsg [] Ex.fB4 0).pending Ex.fS4 0).emitted.map
        (fun t => t.source) ≠ [some "assembler"] := by
  constructor
  · norm_num [processFillMsg, upsertFill, computeTradeFromFills, toAsmLeg, mapLookup,
              mapSet, mapDelete, Ex.fB4, Ex.fS4, Ex.fillAt, safeNum, jsOrQ,
              jsUpper_BUY, jsUpper_SELL, buy_beq_sell, sell_beq_buy, buy_beq_buy,
              sell_beq_sell, List.filter]
  · norm_num [processFillMsg, upsertFill, computeTradeFromFills, toAsmLeg, mapLookup,
              mapSet, mapDelete, Ex.fB4, Ex.fS4, Ex.fillAt, safeNum, jsOrQ,
              jsUpper_BUY, jsUpper_SELL, buy_beq_sell, sell_beq_buy, buy_beq_buy,
              sell_beq_sell, List.filter]
    simp

/-- C10: the assembler deletes a corrId's pending entry as soon as it holds
two fills, before any side check: two same-side fills are both acknowledged,
no Trade is emitted, the pending entry is gone, and a later fill for that
corrId starts a fresh record containing only itself — the discarded pair can
never be joined again. -/
theorem assembler_same_side_discard
    (p0 : List (String × PendingRec)) (f1 f2 f3 : Executor.FillMsg)
    (corr : String) (t1 t2 t3 : ℚ)
    (h0 : mapLookup p0 corr = none)
    (hc1 : f1.payload.corrId = some corr)
    (hc2 : f2.payload.corrId = some corr)
    (hc3 : f3.payload.corrId = some corr)
    (hside : (jsUpper f1.payload.side = "BUY" ∧ jsUpper f2.payload.side = "BUY") ∨
             (jsUpper f1.payload.side = "SELL" ∧ jsUpper f2.payload.side = "SELL")) :
    (processFillMsg p0 f1 t1).acked = true ∧
    (processFillMsg (processFillMsg p0 f1 t1).pending f2 t2).acked = true ∧
    (processFillMsg (processFillMsg p0 f1 t1).pending f2 t2).emitted = [] ∧
    mapLookup (processFillMsg (processFillMsg p0 f1 t1).pending f2 t2).pending corr = none ∧
    (mapLookup (processFillMsg
        (processFillMsg (processFillMsg p0 f1 t1).pending f2 t2).pending f3 t3).pending
        corr).map PendingRec.legs = some [f3] := by
  have hpend2 : mapLookup
      (processFillMsg (processFillMsg p0 f1 t1).pending f2 t2).pending corr = none := by
    rw [processFillMsg_pending]
    simp [processFillMsg_pending, upsertFill, hc1, hc2, h0, mapLookup_mapSet_self,
          mapLookup_mapDelete_self]
  refine ⟨processFillMsg_acked p0 f1 t1,
          processFillMsg_acked (processFillMsg p0 f1 t1).pending f2 t2, ?_, hpend2, ?_⟩
  · rcases hside with ⟨hs1, hs2⟩ | ⟨hs1, hs2⟩ <;>
      simp [processFillMsg, processFillMsg_pending, upsertFill, hc1, hc2, h0,
            mapLookup_mapSet_self, computeTradeFromFills, toAsmLeg, hs1, hs2,
            buy_beq_sell, sell_beq_buy, buy_beq_buy, sell_beq_sell]
  · rw [processFillMsg_pending]
    simp [upsertFill, hc3, hpend2, mapLookup_mapSet_self]

/-- Witness for C10: two BUY fills for corr c10 are discarded with no trade,
and a third fill starts over with a fresh one-element record. -/
theorem assembler_same_side_discard_witness :
    (processFillMsg (processFillMsg [] Ex.fBa 0).pending Ex.fBb 0).emitted = [] ∧
    mapLookup (processFillMsg (processFillMsg [] Ex.fBa 0).pending Ex.fBb 0).pending
      "c10" = none ∧
    (mapLookup (processFillMsg
        (processFillMsg (processFillMsg [] Ex.fBa 0).pending Ex.fBb 0).pending
        Ex.fBc 0).pending "c10").map PendingRec.legs = some [Ex.fBc] := by
  have h := assembler_same_side_discard [] Ex.fBa Ex.fBb Ex.fBc "c10" 0 0 0
    rfl rfl rfl rfl (Or.inl ⟨by decide, by decide⟩)
  exact ⟨h.2.2.1, h.2.2.2.1, h.2.2.2.2⟩

end CryptoBot.Assembler

namespace CryptoBot.RiskEngine

theorem evaluateRisk_ok_fields (cfg : RiskCfg) (opp : Opportunity) :
    (evaluateRisk cfg opp).ok = true →
      (evaluateRisk cfg opp).reason = "approved" ∧
      (evaluateRisk cfg opp).netBps.isSome = true ∧
      (evaluateRisk cfg opp).totalFeesLikeBps.isSome = true := by
  rcases hE : evaluateRisk cfg opp with ⟨ok, reason, netBps, fees⟩
  intro h
  simp only at h
  unfold evaluateRisk at hE
  simp only at hE
  repeat' split at hE
  all_goals cases hE
  all_goals
    first
      | exact Bool.noConfusion h
      | exact ⟨rfl, rfl, rfl⟩

/-- C5: for every Opportunity the risk engine consumes, a failed policy check
counts one rejection, acknowledges, and publishes nothing on `arb.approved`;
when every check passes the Opportunity is re-emitted verbatim (`{...opp}`)
except for the added `approved=true` flag and a `risk` block carrying the
computed `netBps`, `totalFeesLikeBps` and the active policy values. -/
theorem riskStep_spec (cfg : RiskCfg) (opp : Opportunity) :
    ((evaluateRisk cfg opp).ok = false →
        (riskStep cfg opp).published = none ∧
        (riskStep cfg opp).rejectedInc = 1 ∧
        (riskStep cfg opp).approvedInc = 0 ∧
        (riskStep cfg opp).acked = true) ∧
    ((evaluateRisk cfg opp).ok = true →
        (riskStep cfg opp).published =
          some { opp with
                 approved := some true,
                 risk := some { reason := "approved",
                                netBps := (evaluateRisk cfg opp).netBps,
                                totalFeesLikeBps := (evaluateRisk cfg opp).totalFeesLikeBps,
                                policy := { edgeMinBps := cfg.edgeMinBps,
                                            netMinBps := cfg.netMinBps,
                                            maxTotalSize := cfg.maxTotalSize,
                                            requireBothSides := cfg.requireBothSides } } } ∧
        (evaluateRisk cfg opp).netBps.isSome = true ∧
        (evaluateRisk cfg opp).totalFeesLikeBps.isSome = true ∧
        (riskStep cfg opp).approvedInc = 1 ∧
        (riskStep cfg opp).rejectedInc = 0 ∧
        (riskStep cfg opp).acked = true) := by
  constructor
  · intro h
    simp [riskStep, h]
  · intro h
    obtain ⟨hr, hn, hf⟩ := evaluateRisk_ok_fields cfg opp h
    refine ⟨?_, hn, hf, ?_, ?_, ?_⟩ <;> simp [riskStep, h, buildApproved, hr]

end CryptoBot.RiskEngine

namespace CryptoBot.RiskEngine

/-- Witness for C5: a concrete paper Opportunity passing every check is
republished verbatim with `approved=true` and the computed risk block. -/
theorem riskStep_spec_witness :
    (evaluateRisk Ex.cfgOkW Ex.oppEx).ok = true ∧
    (riskStep Ex.cfgOkW Ex.oppEx).published =
      some { Ex.oppEx with
             approved := some true,
             risk := some { reason := "approved", netBps := some 230,
                            totalFeesLikeBps := some 20,
                            policy := { edgeMinBps := 20, netMinBps := 0,
                                        maxTotalSize := 10,
                                        requireBothSides := true } } } := by
  have hev : evaluateRisk Ex.cfgOkW Ex.oppEx =
      { ok := true, reason := "approved", netBps := some 230,
        totalFeesLikeBps := some 20 } := by
    norm_num [evaluateRisk, Ex.cfgOkW, Ex.oppEx, Ex.legBuy, Ex.legSell, Ex.noCosts,
              safeNum, round2, jsUpper_BUY, jsUpper_SELL, buy_beq_sell, sell_beq_buy,
              buy_beq_buy, sell_beq_sell]
  have h := (riskStep_spec Ex.cfgOkW Ex.oppEx).2 (by rw [hev])
  refine ⟨by rw [hev], ?_⟩
  rw [h.1, hev]
  norm_num [Ex.cfgOkW]

end CryptoBot.RiskEngine
